import Mathlib

/-!
# Verification of `@aklinker1/solid-primatives`

A shallow embedding, in Lean 4, of the reactive utility hooks of the
repository (watchers, throttle, storage-backed signals, undo/redo history,
and the query/mutation cache), together with theorems settling the spec's
claims about them.

Conventions used throughout:
* JavaScript's `undefined` is modelled by `Option.none` where it can occur.
* Time is modelled by natural numbers (milliseconds); `setTimeout(f, d)`
  issued at time `t` runs `f` at time `t + d`, and due timers run before any
  later call event, so "the flag was reset" is visible to any call at a
  strictly later instant.
* Solid's cooperative scheduling is modelled by explicit state passing:
  an effect evaluation is a function from the previous state and the value
  read to the next state plus the observable action (callback invocation,
  backend write, ...).
-/

namespace SolidPrimatives

/-! ## `watch.ts` — the change watcher

`watch(value, cb, options)` creates a `prev` signal (initially `undefined`)
and an effect that reads the source, compares it with `prev()`, invokes the
callback on inequality, and then executes `setPrev(prev)`.

The value domain `V` models *defined* JS values (the sources in the claims
produce numbers); the `prev` signal holds `Option V`, `none` standing for
`undefined`.  For such primitive values the `deep` comparison (`dequal`)
and the default strict comparison (`!==`) coincide with decidable equality
on `Option V`, so both branches of the source's conditional are the same
test here. -/

/-- The `prev` signal created by `watch` (`createSignal<T>()`, initially
`undefined`). -/
structure WatchState (V : Type) where
  prev : Option V
  deriving DecidableEq, Repr

/-- One evaluation of the effect body of `watch` while reading the source
value `v`.  Returns the state after the evaluation and, when the callback
was invoked, its arguments `(newValue, oldValue)`.

Faithful to the source:
```
const oldValue = prev();
const newValue = value();
if (options?.deep ? !dequal(oldValue, newValue) : oldValue !== newValue) {
  cb(newValue, oldValue);
}
setPrev(prev);
```
`setPrev(prev)` passes the *accessor* to the setter.  Solid setters treat a
function argument as an updater `current => next`, and an accessor ignores
its argument and returns the signal's current value, so this line leaves
the stored previous value unchanged. -/
def watchEffectStep {V : Type} [DecidableEq V] (st : WatchState V) (v : V) :
    WatchState V × Option (V × Option V) :=
  let oldValue := st.prev
  let newValue := v
  let fired := if oldValue ≠ some newValue then some (newValue, oldValue) else none
  ({ prev := st.prev }, fired)

/-- Run the watcher's effect over a sequence of read values and collect the
callback invocations.  The list holds the value read at each evaluation of
the effect: the first entry is the initial run `createEffect` performs, and
each later entry is a re-run caused by an *actual* change of the source
signal (Solid signals compare with `===` and do not notify their effects
when set to an identical value). -/
def watchRun {V : Type} [DecidableEq V] (st : WatchState V) (values : List V) :
    WatchState V × List (V × Option V) :=
  values.foldl
    (fun acc v =>
      let step := watchEffectStep acc.1 v
      (step.1, acc.2 ++ step.2.toList))
    (st, [])

/-! ## `useThrottle.ts`

```
let waiting = false;
return ((...args) => {
  if (waiting) return;
  fn(...args);
  waiting = true;
  setTimeout(() => { waiting = false; }, toValue(interval));
});
```
The `waiting` flag is `true` from a fired call at time `t` until the timer
at `t + interval` runs; a call at time `u` observes `waiting = true` exactly
when `u < busyUntil`. -/

/-- Rate-limiter state: `busyUntil` is the instant at which the pending
`setTimeout` resets `waiting` (`0` initially — not waiting). -/
structure ThrottleState where
  busyUntil : Nat
  deriving DecidableEq, Repr

/-- One invocation of the throttled wrapper at time `t` with argument `a`:
drops the call while `waiting` is set, otherwise invokes `fn(a)`
immediately (recorded in the log) and schedules the reset. -/
def throttleCall {A : Type} (interval : Nat)
    (acc : ThrottleState × List (Nat × A)) (call : Nat × A) :
    ThrottleState × List (Nat × A) :=
  let (st, log) := acc
  let (t, a) := call
  if t < st.busyUntil then (st, log)
  else ({ busyUntil := t + interval }, log ++ [(t, a)])

/-- Run a (time-ordered) sequence of invocations against a fresh throttled
wrapper; returns the final state and the log of invocations of the wrapped
function. -/
def throttleRun {A : Type} (interval : Nat) (calls : List (Nat × A)) :
    ThrottleState × List (Nat × A) :=
  calls.foldl (throttleCall interval) (⟨0⟩, [])

/-! ## `useStorage.ts`

```
const setItem = useThrottle((value) => { try { storage.setValue(toValue(key), value); } catch ... });
const [value, _setValue] = createSignal(getItem());
const setValue = (value) => { _setValue(value); setItem(value); };
```
Writes update the in-memory signal immediately and unconditionally, then
invoke the throttled backend write-through (default 100 ms window).  Backend
errors are caught and logged; they do not alter the state modelled here. -/

/-- State of a storage-backed reference: the in-memory signal value, the
throttle state of `setItem`, and the log of `storage.setValue` invocations
(time, value) actually issued to the backend. -/
structure StorageState (V : Type) where
  mem : V
  busyUntil : Nat
  backendWrites : List (Nat × V)
  deriving DecidableEq, Repr

/-- Initial state of `useStorage`: `mem` holds the result of the initial
`getItem()` (the stored value, or the default on absence/error); no backend
write has been issued and the throttle is idle. -/
def storageInit {V : Type} (v0 : V) : StorageState V :=
  { mem := v0, busyUntil := 0, backendWrites := [] }

/-- One call of the returned write function at time `t` with value `v`:
`_setValue(v)` runs first (unconditionally), then the throttled `setItem`
either issues `storage.setValue` (recording `(t, v)` and opening a window)
or drops the call while a window is pending. -/
def storageSetValue {V : Type} (interval : Nat)
    (s : StorageState V) (t : Nat) (v : V) : StorageState V :=
  let s1 := { s with mem := v }
  if t < s1.busyUntil then s1
  else { s1 with busyUntil := t + interval, backendWrites := s1.backendWrites ++ [(t, v)] }

/-- Run a time-ordered sequence of writes against a storage-backed
reference. -/
def storageRun {V : Type} (interval : Nat) (s : StorageState V)
    (writes : List (Nat × V)) : StorageState V :=
  writes.foldl (fun acc w => storageSetValue interval acc w.1 w.2) s

/-! ## `watchIgnorable` (unnamed module)

```
const [ignoring, setIgnoring] = createSignal(false);
watch(value, (newValue, oldValue) => { if (ignoring()) return; cb(newValue, oldValue); }, options);
return { ignoreUpdates: (cb) => { try { setIgnoring(true); cb(); } finally { setIgnoring(false); } } };
```
The block passed to `ignoreUpdates` runs synchronously with the flag set;
it may mutate arbitrary state (of type `σ`) and may throw (an `ε`). -/

/-- The suppression flag plus whatever state the block manipulates. -/
structure IgnSt (σ : Type) where
  src : σ
  ignoring : Bool

/-- The `ignoreUpdates(block)` operation: set the flag, run the block synchronously, and
clear the flag in a `finally` — on the normal exit path and on the throwing
one alike, the thrown error being re-raised to the caller afterwards.  A
block is modelled as a function from the state it observes to its outcome
(`Except.ok ()` for a normal return, `Except.error e` for a raise) together
with the state it leaves behind. -/
def ignoreUpdates {σ ε : Type}
    (block : IgnSt σ → Except ε Unit × IgnSt σ) (s : IgnSt σ) :
    Except ε Unit × IgnSt σ :=
  let s1 : IgnSt σ := { s with ignoring := true }
  let (r, s2) := block s1
  (r, { s2 with ignoring := false })

/-- The wrapped callback installed by `watchIgnorable`: when the flag is
set the user callback is skipped (the underlying `watch` effect still runs
its previous-value bookkeeping). -/
def ignorableCb {V : Type} (ignoring : Bool) (args : V × Option V) :
    Option (V × Option V) :=
  if ignoring then none else some args

/-! ## `useRefHistory` (unnamed module)

State: `history` (a signal holding the list of deep snapshots), `index`
(a signal), and the tracked reference cell's current value `ref`.  In this
pure model `structuredClone` is the identity (values have value
semantics). -/

/-- The observable state of `useRefHistoryUnstable`. -/
structure HistSt (V : Type) where
  history : List V
  index : Nat
  ref : V
  deriving DecidableEq, Repr

/-- Initial state of `useRefHistoryUnstable(ref)`:
`createSignal([structuredClone(ref.value)])` and index `0`. -/
def histInit {V : Type} (v : V) : HistSt V :=
  { history := [v], index := 0, ref := v }

/-- The recording callback (fired by the ignorable watcher on a change of
the reference to `v` that was not wrapped in `ignoreUpdates`):
```
const newIndex = index() + 1;
setHistory((history) => [...history.slice(0, newIndex), structuredClone(newValue)]);
setIndex(newIndex);
```
The reference already holds `v` when the callback fires. -/
def record {V : Type} (s : HistSt V) (v : V) : HistSt V :=
  let newIndex := s.index + 1
  { history := s.history.take newIndex ++ [v], index := newIndex, ref := v }

/-- The `undo()` operation: `newIndex = Math.max(index() - 1, 0)` (truncated subtraction);
when it differs from the current index, move to it and assign the snapshot
at the new index back into the reference (inside `ignoreUpdates`, so no
recording occurs).  JS indexing `history()[newIndex]` is modelled with
`List.get?`; the index is in range in every reachable state (see the
`histWF` lemmas below), so the `getD` fallback is never consulted there. -/
def undo {V : Type} (s : HistSt V) : HistSt V :=
  let newIndex := s.index - 1
  if newIndex ≠ s.index then
    { s with index := newIndex, ref := (s.history[newIndex]?).getD s.ref }
  else s

/-- The `redo()` operation: symmetric, `newIndex = Math.min(index() + 1, history().length - 1)`. -/
def redo {V : Type} (s : HistSt V) : HistSt V :=
  let newIndex := min (s.index + 1) (s.history.length - 1)
  if newIndex ≠ s.index then
    { s with index := newIndex, ref := (s.history[newIndex]?).getD s.ref }
  else s

/-- Source: `canUndo: () => index() > 0`. -/
def canUndo {V : Type} (s : HistSt V) : Bool :=
  decide (s.index > 0)

/-- Source: `canRedo: () => index() < history().length - 1` (for the empty history,
unreachable, JS compares against `-1`; truncated subtraction gives the same
`false` here). -/
def canRedo {V : Type} (s : HistSt V) : Bool :=
  decide (s.index < s.history.length - 1)

/-- Well-formedness of a history state: the index is in bounds and the
tracked reference holds the snapshot at the current index.  This holds in
every reachable state (preserved by `record`, `undo`, `redo` from
`histInit`). -/
def histWF {V : Type} (s : HistSt V) : Prop :=
  s.index < s.history.length ∧ s.history[s.index]? = some s.ref

/-! ## `query.ts` — query keys and canonicalization

```
function serializeKey(key) {
  const value = toValue(key);
  if (!Array.isArray(value)) return String(value);
  return value.join(" → ");
}
```
A query key is a primitive (`string | number | boolean | undefined | null`)
or an array of primitives.  Numbers are modelled as integers (the keys in
the claims are integral).  `String(x)` renders `null`/`undefined` as the
words "null"/"undefined", while `Array.prototype.join` renders them as the
empty string. -/

/-- A primitive query-key element. -/
inductive QueryPrim : Type
  | str (s : String)
  | num (n : Int)
  | bool (b : Bool)
  | null
  | undef
  deriving DecidableEq, Repr

/-- A query key: a primitive or an array of primitives. -/
inductive QueryKey : Type
  | prim (p : QueryPrim)
  | arr (xs : List QueryPrim)
  deriving DecidableEq, Repr

/-- JS `String(x)` on a primitive. -/
def jsString : QueryPrim → String
  | .str s => s
  | .num n => toString n
  | .bool b => cond b "true" "false"
  | .null => "null"
  | .undef => "undefined"

/-- How `Array.prototype.join` renders one element: like `String`, except
that `null` and `undefined` become the empty string. -/
def joinElem : QueryPrim → String
  | .null => ""
  | .undef => ""
  | p => jsString p

/-- Canonicalization `serializeKey`: scalar keys by string coercion, array keys joined with
the fixed delimiter `" → "`. -/
def serializeKey : QueryKey → String
  | .prim p => jsString p
  | .arr xs => String.intercalate " → " (xs.map joinElem)

/-! ## `query.ts` — the shared store and `fetch`

The client's store maps canonical key strings to `QueryData` records.  The
declared interface of a record is `{ status, error, data }`; at runtime the
loading transition additionally writes a stray `err` property (the source
spells `err: undefined` where the declared field is `error`), which is kept
here so the embedding matches the records the code actually produces.
Solid's `setStore(key, obj)` shallow-merges a plain object into the record
at `key`. -/

/-- Lifecycle status of an async request. -/
inductive AsyncStatus : Type
  | idle
  | loading
  | error
  | success
  deriving DecidableEq, Repr

/-- A per-key record of the shared store, as actually produced at runtime
(declared fields `status`/`error`/`data` plus the stray `err` property
written by the loading transition). -/
structure QueryData (V E : Type) where
  status : AsyncStatus
  data : Option V
  error : Option E
  err : Option E
  deriving DecidableEq, Repr

/-- The query client's shared store: an association list from canonical key
string to record (a record is created lazily on first fetch and never
deleted). -/
abbrev QueryStore (V E : Type) : Type :=
  List (String × QueryData V E)

/-- Store lookup (`client.store[keyStr]`; `none` = no record yet). -/
def lookupStore {V E : Type} (store : QueryStore V E) (keyStr : String) :
    Option (QueryData V E) :=
  (store.find? (fun p => p.1 = keyStr)).map Prod.snd

/-- The synchronous loading transition of `fetch`:
```
client.setStore(keyStr, (existing) => ({ ...existing, status: "loading", err: undefined }));
```
`existing` may be `undefined` (spreading it contributes nothing).  Note the
source writes `err: undefined` — a property that is not part of the
declared `QueryData` interface — so the declared `error` field is *not*
cleared: it is carried over from `existing`. -/
def loadingUpdate {V E : Type} (existing : Option (QueryData V E)) : QueryData V E :=
  { status := .loading
    data := existing.bind (·.data)
    error := existing.bind (·.error)
    err := none }

/-- Write-or-insert at a canonical key, applying `f` to the existing record
(if any). -/
def setStoreWith {V E : Type} (store : QueryStore V E) (keyStr : String)
    (f : Option (QueryData V E) → QueryData V E) : QueryStore V E :=
  match lookupStore store keyStr with
  | some _ => store.map (fun p => if p.1 = keyStr then (p.1, f (some p.2)) else p)
  | none => store ++ [(keyStr, f none)]

/-- Source: `client.setStore(keyStr, { status: "success", data })`: Solid
shallow-merges the object into the record, so `error`/`err` survive. -/
def successUpdate {V E : Type} (d : V) (existing : Option (QueryData V E)) :
    QueryData V E :=
  { status := .success
    data := some d
    error := existing.bind (·.error)
    err := existing.bind (·.err) }

/-- Source: `client.setStore(keyStr, { status: "error", error })`: shallow-merged,
so `data`/`err` survive. -/
def errorUpdate {V E : Type} (e : E) (existing : Option (QueryData V E)) :
    QueryData V E :=
  { status := .error
    data := existing.bind (·.data)
    error := some e
    err := existing.bind (·.err) }

/-- The synchronously observable outcome of one call of `fetch`:
* `disabled` — `toValue(options?.enabled) === false`, resolve `undefined`
  without touching the store;
* `cachedError e` — cache hit with a truthy `error`: reject with the cached
  error, query function not invoked, store unmodified;
* `cachedData d` — cache hit without error: resolve the cached `data`,
  query function not invoked, store unmodified;
* `started` — the record was flipped to `loading` and the async query
  function was invoked. -/
inductive FetchOutcome (V E : Type) : Type
  | disabled
  | cachedError (e : E)
  | cachedData (d : Option V)
  | started
  deriving DecidableEq, Repr

/-- The synchronous part of `fetch(fetchOptions)` from `useQuery`.
`enabled` is `toValue(options?.enabled)` (`none` when the option is
absent).  JS truthiness of `cached.error` is modelled as `Option.isSome`
(errors are taken to be truthy values, as in the claims). -/
def fetchStep {V E : Type} (useCache : Bool) (enabled : Option Bool)
    (store : QueryStore V E) (keyStr : String) :
    FetchOutcome V E × QueryStore V E :=
  if enabled = some false then (.disabled, store)
  else
    match (if useCache then lookupStore store keyStr else none) with
    | some cached =>
        match cached.error with
        | some e => (.cachedError e, store)
        | none => (.cachedData cached.data, store)
    | none => (.started, setStoreWith store keyStr loadingUpdate)

/-- The initial on-mount fetch (`onMount(() => void fetch({ useCache: true }))`). -/
def onMountFetch {V E : Type} (enabled : Option Bool) (store : QueryStore V E)
    (keyStr : String) : FetchOutcome V E × QueryStore V E :=
  fetchStep true enabled store keyStr

/-- The key-change re-fetch (`watch(() => toValue(key), () => void fetch({ useCache: true }), ...)`). -/
def onKeyChangeFetch {V E : Type} (enabled : Option Bool) (store : QueryStore V E)
    (keyStr : String) : FetchOutcome V E × QueryStore V E :=
  fetchStep true enabled store keyStr

/-- The enabled-toggle re-fetch (`watch(() => toValue(options?.enabled), () => void fetch({ useCache: true }))`). -/
def onEnabledChangeFetch {V E : Type} (enabled : Option Bool) (store : QueryStore V E)
    (keyStr : String) : FetchOutcome V E × QueryStore V E :=
  fetchStep true enabled store keyStr

/-- Source: `refetch: () => fetch({ useCache: false })`. -/
def refetch {V E : Type} (enabled : Option Bool) (store : QueryStore V E)
    (keyStr : String) : FetchOutcome V E × QueryStore V E :=
  fetchStep false enabled store keyStr

/-- JS `s.startsWith(p)`: `p` is a string prefix of `s`.  (Defined on the
character lists so that it evaluates inside the kernel; it agrees with
`String.startsWith`.) -/
def jsStartsWith (s p : String) : Bool :=
  p.data.isPrefixOf s.data

/-- The invalidation listener of one query instance:
```
const currentKey = serializeKey(key);
const invalidatedKey = e.detail;
if (currentKey.startsWith(invalidatedKey)) void fetch({ useCache: false });
```
Returns `none` when the event does not match (no fetch at all), otherwise
the outcome of the cache-bypassing fetch. -/
def onInvalidationMessage {V E : Type} (enabled : Option Bool)
    (store : QueryStore V E) (currentKey invalidatedKey : String) :
    Option (FetchOutcome V E × QueryStore V E) :=
  if jsStartsWith currentKey invalidatedKey then
    some (fetchStep false enabled store currentKey)
  else none

/-- The payload `invalidateQuery(key)` broadcasts on the process-wide bus. -/
def invalidatePayload (key : QueryKey) : String :=
  serializeKey key

/-- One call of `fetch` by a query instance constructed over the key value
`key` (the instance canonicalizes the key itself: `serializeKey(key)`). -/
def fetchByKey {V E : Type} (useCache : Bool) (enabled : Option Bool)
    (store : QueryStore V E) (key : QueryKey) :
    FetchOutcome V E × QueryStore V E :=
  fetchStep useCache enabled store (serializeKey key)

/-- Whether the instance watching `key` matches an invalidation broadcast
carrying canonical payload `payload`. -/
def matchesInvalidation (key : QueryKey) (payload : String) : Bool :=
  jsStartsWith (serializeKey key) payload

/-! ## Helper lemmas -/

/-- A fired or dropped write always lands in the in-memory signal. -/
lemma storageSetValue_mem {V : Type} (interval : Nat) (s : StorageState V)
    (t : Nat) (v : V) : (storageSetValue interval s t v).mem = v := by
  simp only [storageSetValue]
  split <;> rfl

/-- After any nonempty sequence of writes, the in-memory signal holds the
value of the last write. -/
lemma storageRun_mem {V : Type} (interval : Nat) (ws : List (Nat × V)) :
    ∀ (s : StorageState V) (h : ws ≠ []),
      (storageRun interval s ws).mem = (ws.getLast h).2 := by
  induction ws with
  | nil => intro s h; exact absurd rfl h
  | cons w tl ih =>
    intro s _
    by_cases htl : tl = []
    · subst htl
      simp [storageRun, storageSetValue_mem]
    · rw [List.getLast_cons htl]
      have : storageRun interval s (w :: tl) =
          storageRun interval (storageSetValue interval s w.1 w.2) tl := rfl
      rw [this, ih _ htl]

/-- Every entry of the backend log after a run was already in the log or is
one of the issued writes. -/
lemma storageRun_backend_mem {V : Type} (interval : Nat) (ws : List (Nat × V)) :
    ∀ (s : StorageState V) (p : Nat × V),
      p ∈ (storageRun interval s ws).backendWrites →
        p ∈ s.backendWrites ∨ p ∈ ws := by
  induction ws with
  | nil => intro s p hp; exact Or.inl hp
  | cons w tl ih =>
    intro s p hp
    have hstep : storageRun interval s (w :: tl) =
        storageRun interval (storageSetValue interval s w.1 w.2) tl := rfl
    rw [hstep] at hp
    rcases ih _ p hp with h | h
    · simp only [storageSetValue] at h
      split at h
      · exact Or.inl h
      · simp only [List.mem_append, List.mem_singleton] at h
        rcases h with h | h
        · exact Or.inl h
        · exact Or.inr (by simp [h])
    · exact Or.inr (List.mem_cons_of_mem _ h)

/-- Invariant carried through a storage run: consecutive backend writes are
at least one interval apart, and the throttle window extends one interval
past the last backend write. -/
def storageInv {V : Type} (interval : Nat) (s : StorageState V) : Prop :=
  List.Chain' (fun p q => p.1 + interval ≤ q.1) s.backendWrites ∧
    ∀ l ∈ s.backendWrites.getLast?, l.1 + interval ≤ s.busyUntil

lemma storageSetValue_inv {V : Type} (interval : Nat) (s : StorageState V)
    (t : Nat) (v : V) (h : storageInv interval s) :
    storageInv interval (storageSetValue interval s t v) := by
  obtain ⟨hchain, hlast⟩ := h
  simp only [storageSetValue, storageInv]
  split
  · exact ⟨hchain, hlast⟩
  · rename_i hwait
    have ht : s.busyUntil ≤ t := Nat.le_of_not_lt hwait
    constructor
    · rw [List.chain'_append]
      refine ⟨hchain, List.chain'_singleton _, ?_⟩
      intro x hx y hy
      simp only [List.head?_cons, Option.mem_def, Option.some.injEq] at hy
      subst hy
      exact le_trans (hlast x hx) ht
    · intro l hl
      change l ∈ (s.backendWrites ++ [(t, v)]).getLast? at hl
      rw [List.getLast?_append_of_ne_nil _ (by simp)] at hl
      simp only [List.getLast?_singleton, Option.mem_def, Option.some.injEq] at hl
      subst hl
      exact Nat.le_refl _

lemma storageRun_inv {V : Type} (interval : Nat) (ws : List (Nat × V)) :
    ∀ (s : StorageState V), storageInv interval s →
      storageInv interval (storageRun interval s ws) := by
  induction ws with
  | nil => intro s h; exact h
  | cons w tl ih =>
    intro s h
    exact ih _ (storageSetValue_inv interval s w.1 w.2 h)

/-- Well-formedness `histWF` holds initially. -/
lemma histWF_init {V : Type} (v : V) : histWF (histInit v) := by
  constructor
  · simp [histInit]
  · simp [histInit]

/-- Well-formedness `histWF` is preserved by the recording callback. -/
lemma histWF_record {V : Type} (s : HistSt V) (v : V) (h : histWF s) :
    histWF (record s v) := by
  obtain ⟨hlen, _⟩ := h
  have htake : (s.history.take (s.index + 1)).length = s.index + 1 :=
    List.length_take_of_le (by omega)
  constructor
  · simp only [record, List.length_append, htake, List.length_singleton]
    omega
  · simp only [record]
    rw [List.getElem?_append_right (by omega)]
    simp [htake]

/-- Well-formedness `histWF` is preserved by `undo`. -/
lemma histWF_undo {V : Type} (s : HistSt V) (h : histWF s) :
    histWF (undo s) := by
  obtain ⟨hlen, href⟩ := h
  simp only [undo]
  split
  · have hlt : s.index - 1 < s.history.length := by omega
    have hg : s.history[s.index - 1]? = some s.history[s.index - 1] :=
      List.getElem?_eq_getElem hlt
    exact ⟨hlt, by simp [histWF, hg]⟩
  · exact ⟨hlen, href⟩

/-- Well-formedness `histWF` is preserved by `redo`. -/
lemma histWF_redo {V : Type} (s : HistSt V) (h : histWF s) :
    histWF (redo s) := by
  obtain ⟨hlen, href⟩ := h
  simp only [redo]
  split
  · have hlt : min (s.index + 1) (s.history.length - 1) < s.history.length := by
      omega
    have hg : s.history[min (s.index + 1) (s.history.length - 1)]? =
        some s.history[min (s.index + 1) (s.history.length - 1)] :=
      List.getElem?_eq_getElem hlt
    exact ⟨hlt, by simp [histWF, hg]⟩
  · exact ⟨hlen, href⟩

/-! ## Claim theorems -/

/-- C1: the claimed scenario for `watch(source, cb)` without `immediate`
(source initially `1`, then set to `2`) fails on the code.  The effect's
first run already fires `cb(1, undefined)` (there is no first-evaluation
suppression: the `prev` signal starts at `undefined` and `1 !== undefined`),
and since `setPrev(prev)` never updates the stored previous value, the
change to `2` fires `cb(2, undefined)` rather than the claimed `cb(2, 1)`.
(Setting the source to `2` again does not re-run the effect — Solid signals
do not notify on identical writes — so that part of the scenario produces
no evaluation.)  The invocation log over the two evaluations is
`[(1, undefined), (2, undefined)]`, not the claimed `[(2, 1)]`. -/
theorem watch_scenario_fires_on_construction_and_loses_old_value :
    (watchRun (⟨none⟩ : WatchState Int) [1, 2]).2 = [(1, none), (2, none)] ∧
      (watchRun (⟨none⟩ : WatchState Int) [1, 2]).2 ≠ [(2, some 1)] := by
  decide

/-- C5: after an evaluation of the watcher's effect that reads the value
`1`, the stored previous value is still `undefined`, not `1`:
`setPrev(prev)` passes the accessor to the setter, which (treating it as an
updater) leaves the signal unchanged, so the unconditional previous-value
update the spec describes never happens. -/
theorem watch_effect_does_not_update_prev :
    ((watchEffectStep (⟨none⟩ : WatchState Int) 1).1).prev = none ∧
      ((watchEffectStep (⟨none⟩ : WatchState Int) 1).1).prev ≠ some 1 := by
  decide

/-- C7: `useThrottle(fn, 100)` — calls at 0 ms, 20 ms and 50 ms (within
50 ms of each other) invoke `fn` exactly once, with the arguments of the
first call (`10`); a fourth call at 150 ms, after the 100 ms interval has
elapsed, invokes `fn` again immediately with its own arguments. -/
theorem throttle_scenario :
    (throttleRun 100 [((0 : Nat), (10 : Nat)), (20, 20), (50, 30), (150, 40)]).2 =
      [(0, 10), (150, 40)] := by
  decide

/-- C8: for every block passed to `ignoreUpdates` and every starting state,
the suppression flag is cleared on every exit path (the block being
arbitrary, this covers both a normal return and a raise), the block's
outcome — including a raised error — is propagated unchanged to the caller,
and the block ran synchronously on the state with the flag set (its result
and its mutations are exactly those of running it on
`{ s with ignoring := true }`). -/
theorem ignoreUpdates_clears_flag_on_all_exit_paths {σ ε : Type}
    (block : IgnSt σ → Except ε Unit × IgnSt σ) (s : IgnSt σ) :
    (ignoreUpdates block s).2.ignoring = false ∧
      (ignoreUpdates block s).1 = (block { s with ignoring := true }).1 ∧
      (ignoreUpdates block s).2.src = (block { s with ignoring := true }).2.src := by
  cases h : block { s with ignoring := true } with
  | mk r s2 => simp [ignoreUpdates, h]

/-- C3: for every enabled query instance (the `enabled` option is not
`false`), every store content (in particular stores already holding a
cached record for the key), and every invalidation broadcast: if the
canonicalized target is a string prefix of the instance's canonical key,
the instance performs a fetch with `useCache: false`, whose outcome is
`started` — the record is flipped to `loading` and the async query function
runs, bypassing the cache short-circuit; if the target is not a prefix, no
fetch happens at all. -/
theorem invalidation_matching_rule {V E : Type}
    (enabled : Option Bool) (store : QueryStore V E)
    (currentKey invalidatedKey : String) (hen : enabled ≠ some false) :
    (jsStartsWith currentKey invalidatedKey = true →
        onInvalidationMessage enabled store currentKey invalidatedKey =
          some (.started, setStoreWith store currentKey loadingUpdate)) ∧
      (jsStartsWith currentKey invalidatedKey = false →
        onInvalidationMessage enabled store currentKey invalidatedKey = none) := by
  constructor
  · intro hpre
    simp [onInvalidationMessage, hpre, fetchStep, hen]
  · intro hpre
    simp [onInvalidationMessage, hpre]

/-- C3 witness: the instance watching `"posts → 1"` (enabled, with a cached
success record for its key) matches the invalidation of `"posts"` and
starts a cache-bypassing fetch; it does not match the invalidation of
`"users"`. -/
theorem invalidation_matching_rule_witness :
    (jsStartsWith "posts → 1" "posts" = true) ∧
      (onInvalidationMessage (V := String) (E := String) (some true)
          [("posts → 1",
            { status := .success, data := some "d", error := none, err := none })]
          "posts → 1" "posts").map Prod.fst = some .started ∧
      onInvalidationMessage (V := String) (E := String) (some true)
          [("posts → 1",
            { status := .success, data := some "d", error := none, err := none })]
          "posts → 1" "users" = none := by
  have h := invalidation_matching_rule (V := String) (E := String)
    (some true)
    [("posts → 1", { status := .success, data := some "d", error := none, err := none })]
    "posts → 1" "posts" (by decide)
  have h' := invalidation_matching_rule (V := String) (E := String)
    (some true)
    [("posts → 1", { status := .success, data := some "d", error := none, err := none })]
    "posts → 1" "users" (by decide)
  refine ⟨by decide, ?_, h'.2 (by decide)⟩
  rw [h.1 (by decide)]
  rfl

/-- C10: whenever the shared record for a key holds a (truthy) error, every
cache-using fetch for that key — the initial on-mount fetch, the key-change
re-fetch and the enabled-toggle re-fetch — rejects with the cached error,
does not invoke the async query function, and leaves the store untouched;
whereas the cache-bypassing `refetch` does start the async function again. -/
theorem cached_error_is_sticky {V E : Type} (enabled : Option Bool)
    (store : QueryStore V E) (keyStr : String) (rec : QueryData V E) (e : E)
    (hen : enabled ≠ some false)
    (hlook : lookupStore store keyStr = some rec)
    (herr : rec.error = some e) :
    onMountFetch enabled store keyStr = (.cachedError e, store) ∧
      onKeyChangeFetch enabled store keyStr = (.cachedError e, store) ∧
      onEnabledChangeFetch enabled store keyStr = (.cachedError e, store) ∧
      (refetch enabled store keyStr).1 = .started := by
  refine ⟨?_, ?_, ?_, ?_⟩ <;>
    simp [onMountFetch, onKeyChangeFetch, onEnabledChangeFetch, refetch,
      fetchStep, hen, hlook, herr]

/-- C10 witness: with a record `{ status: "error", error: "boom" }` cached
for key `"k"`, each cache-using fetch rejects with `"boom"` without
touching the store, and `refetch` starts the async function. -/
theorem cached_error_is_sticky_witness :
    onMountFetch (V := String) (E := String) none
        [("k", { status := .error, data := some "old", error := some "boom", err := none })]
        "k" =
      (.cachedError "boom",
        [("k", { status := .error, data := some "old", error := some "boom", err := none })]) ∧
      (refetch (V := String) (E := String) none
          [("k", { status := .error, data := some "old", error := some "boom", err := none })]
          "k").1 = .started := by
  have h := cached_error_is_sticky (V := String) (E := String) none
    [("k", { status := .error, data := some "old", error := some "boom", err := none })]
    "k" { status := .error, data := some "old", error := some "boom", err := none }
    "boom" (by decide) (by rfl) (by rfl)
  exact ⟨h.1, h.2.2.2⟩

/-- C2: the synchronous loading transition of `fetch` does *not* clear the
record's `error` field: the source writes `err: undefined` (a property that
is not part of the declared `QueryData` interface) instead of
`error: undefined`.  Concretely, for key `"posts"` whose record holds error
`"boom"`, a cache-bypassing fetch leaves the record at
`{ status: "loading", error: "boom" }` — the previous error is still
readable after the re-entry into `loading`. -/
theorem loading_transition_keeps_previous_error :
    lookupStore
        (fetchStep (V := String) (E := String) false none
          [("posts", { status := .error, data := none, error := some "boom", err := none })]
          "posts").2 "posts" =
      some { status := .loading, data := none, error := some "boom", err := none } ∧
      (some "boom" : Option String) ≠ none := by
  decide

/-- C9: caching and invalidation behaviour depends only on the canonical
key string: two keys with equal `serializeKey` images look up the same
cache record, produce identical fetch behaviour (for every cache mode,
enabled flag and store), match exactly the same invalidation broadcasts,
and broadcast the same invalidation payload. -/
theorem canonical_string_determines_behaviour {V E : Type} (k1 k2 : QueryKey)
    (h : serializeKey k1 = serializeKey k2) :
    (∀ store : QueryStore V E,
        lookupStore store (serializeKey k1) = lookupStore store (serializeKey k2)) ∧
      (∀ (useCache : Bool) (enabled : Option Bool) (store : QueryStore V E),
        fetchByKey useCache enabled store k1 = fetchByKey useCache enabled store k2) ∧
      (∀ payload : String,
        matchesInvalidation k1 payload = matchesInvalidation k2 payload) ∧
      invalidatePayload k1 = invalidatePayload k2 := by
  refine ⟨?_, ?_, ?_, ?_⟩
  · intro store
    rw [h]
  · intro useCache enabled store
    simp [fetchByKey, h]
  · intro payload
    simp [matchesInvalidation, h]
  · simp [invalidatePayload, h]

/-- C9 witness: the number key `1` and the string key `"1"` canonicalize to
the same string and behave identically on an empty store; the array keys
`["a → b"]` and `["a", "b"]` collide through the delimiter and match the
same invalidation target `"a"`. -/
theorem canonical_string_determines_behaviour_witness :
    serializeKey (.prim (.num 1)) = serializeKey (.prim (.str "1")) ∧
      fetchByKey (V := String) (E := String) true none [] (.prim (.num 1)) =
        fetchByKey true none [] (.prim (.str "1")) ∧
      serializeKey (.arr [.str "a → b"]) = serializeKey (.arr [.str "a", .str "b"]) ∧
      matchesInvalidation (.arr [.str "a → b"]) "a" =
        matchesInvalidation (.arr [.str "a", .str "b"]) "a" := by
  have h1 : serializeKey (.prim (.num 1)) = serializeKey (.prim (.str "1")) := rfl
  have h2 : serializeKey (.arr [.str "a → b"]) =
      serializeKey (.arr [.str "a", .str "b"]) := rfl
  exact ⟨h1,
    (canonical_string_determines_behaviour (V := String) (E := String) _ _ h1).2.1
      true none [],
    h2,
    (canonical_string_determines_behaviour (V := String) (E := String) _ _ h2).2.2.1
      "a"⟩

/-- C4 counterexample: with the default 100 ms window, writing `1` at 0 ms
and `2` at 50 ms leaves the in-memory accessor at `2`, but the backend's
single `setValue` of that window carried `1` — the *first* value of the
window, not the claimed last one (`useThrottle` drops the arguments of
suppressed calls; nothing is flushed at the end of the window, so `2` never
reaches the backend). -/
theorem storage_backend_gets_first_value_of_window :
    (storageRun 100 (storageInit (0 : Int)) [(0, 1), (50, 2)]).mem = 2 ∧
      (storageRun 100 (storageInit (0 : Int)) [(0, 1), (50, 2)]).backendWrites =
        [(0, 1)] ∧
      (storageRun 100 (storageInit (0 : Int)) [(0, 1), (50, 2)]).backendWrites.map
          Prod.snd ≠ [2] := by
  decide

/-- C4 amended: for every throttle interval, initial value and nonempty
time-ordered sequence of writes, the in-memory read accessor ends at the
most recently written value, the backend's `setValue` is invoked at most
once per throttle window (consecutive backend writes are at least one
interval apart), and each backend invocation carries the value of the write
that opened its window (every backend log entry is one of the issued
writes, paired with its own time) — the *first* value of the window, later
writes within the window being dropped. -/
theorem storage_write_through_amended {V : Type} (interval : Nat) (v0 : V)
    (ws : List (Nat × V)) (h : ws ≠ []) :
    (storageRun interval (storageInit v0) ws).mem = (ws.getLast h).2 ∧
      List.Chain' (fun p q => p.1 + interval ≤ q.1)
        (storageRun interval (storageInit v0) ws).backendWrites ∧
      ∀ p ∈ (storageRun interval (storageInit v0) ws).backendWrites, p ∈ ws := by
  refine ⟨storageRun_mem interval ws _ h, ?_, ?_⟩
  · exact (storageRun_inv interval ws (storageInit v0)
      ⟨List.chain'_nil, by simp [storageInit]⟩).1
  · intro p hp
    rcases storageRun_backend_mem interval ws (storageInit v0) p hp with hmem | hmem
    · simp [storageInit] at hmem
    · exact hmem

/-- C4 witness: the amended statement at the counterexample's input — the
memory ends at `2`, the backend log `[(0, 1)]` respects the 100 ms spacing,
and its sole entry is the issued write `(0, 1)`. -/
theorem storage_write_through_amended_witness :
    (storageRun 100 (storageInit (0 : Int)) [(0, 1), (50, 2)]).mem = 2 ∧
      List.Chain' (fun p q => p.1 + 100 ≤ q.1)
        (storageRun 100 (storageInit (0 : Int)) [(0, 1), (50, 2)]).backendWrites ∧
      ∀ p ∈ (storageRun 100 (storageInit (0 : Int)) [(0, 1), (50, 2)]).backendWrites,
        p ∈ [((0 : Nat), (1 : Int)), (50, 2)] := by
  have h := storage_write_through_amended 100 (0 : Int) [(0, 1), (50, 2)]
    (by decide)
  exact ⟨h.1, h.2.1, h.2.2⟩

/-- C6 counterexample: from the reachable state with buffer `[0, 1]`,
index `0` and tracked value `0` (record `1` after initial `0`, then
`undo`), calling `undo` (a no-op at index 0) and then `redo` moves to
index 1 and sets the reference to `1` — it does not restore the value `0`
that was current before the `undo`, refuting the unconditional round-trip
law. -/
theorem history_undo_redo_not_roundtrip_at_bottom :
    (redo (undo (undo (record (histInit (0 : Int)) 1)))).ref = 1 ∧
      (undo (record (histInit (0 : Int)) 1)).ref = 0 ∧
      (1 : Int) ≠ 0 := by
  decide

/-- C6 amended: for every history state whose index is in bounds (as in
every reachable state): `canUndo` is `false` exactly at index 0 and
`canRedo` is `false` exactly at the last index of the buffer; and whenever
`canUndo` is `true` and the tracked reference holds the snapshot at the
current index (also an invariant of reachable states, see `histWF`),
`undo` followed immediately by `redo` restores the exact value that was
current before the `undo`. -/
theorem history_boundaries_and_guarded_roundtrip {V : Type} (s : HistSt V)
    (hlen : s.index < s.history.length) :
    (canUndo s = false ↔ s.index = 0) ∧
      (canRedo s = false ↔ s.index = s.history.length - 1) ∧
      (canUndo s = true → s.history[s.index]? = some s.ref →
        (redo (undo s)).ref = s.ref) := by
  refine ⟨?_, ?_, ?_⟩
  · simp only [canUndo, decide_eq_false_iff_not, not_lt]
    omega
  · simp only [canRedo, decide_eq_false_iff_not, not_lt]
    omega
  · intro hcu href
    have hpos : 0 < s.index := by
      simpa [canUndo] using hcu
    have h1 : s.index - 1 ≠ s.index := by omega
    simp only [undo, if_pos h1]
    have hmin : min (s.index - 1 + 1) (s.history.length - 1) = s.index := by
      omega
    have h2 : min (s.index - 1 + 1) (s.history.length - 1) ≠ s.index - 1 := by
      omega
    simp only [redo, h2, if_pos h2, hmin, href, Option.getD_some]
    rw [if_pos (show s.index ≠ s.index - 1 by omega)]

/-- C6 witness: the amended statement at the reachable state with buffer
`[0, 1]`, index 1 and tracked value 1: `canUndo` is true (index ≠ 0),
`canRedo` is false (index is the last index), and `undo` then `redo`
restores the value `1`. -/
theorem history_boundaries_and_guarded_roundtrip_witness :
    (canUndo (record (histInit (0 : Int)) 1) = false ↔
        (record (histInit (0 : Int)) 1).index = 0) ∧
      (canRedo (record (histInit (0 : Int)) 1) = false ↔
        (record (histInit (0 : Int)) 1).index =
          (record (histInit (0 : Int)) 1).history.length - 1) ∧
      (canUndo (record (histInit (0 : Int)) 1) = true →
        (record (histInit (0 : Int)) 1).history[(record (histInit (0 : Int)) 1).index]? =
          some (record (histInit (0 : Int)) 1).ref →
        (redo (undo (record (histInit (0 : Int)) 1))).ref =
          (record (histInit (0 : Int)) 1).ref) := by
  exact history_boundaries_and_guarded_roundtrip (record (histInit (0 : Int)) 1)
    (by decide)

end SolidPrimatives
